import Mathlib

/-!
Shallow embedding of `eaglemk4_nn_controller/controller.py` (class `Controller`).

The controller is orchestration glue around four opaque collaborators (a DDPG
learner, a VAE perception module, a gym environment, and a ROS parameter
store).  We embed it as trace-producing functions: every externally visible
action (collaborator call, file probe, sleep, print) is an `Event`, and each
routine of the class returns the list of events it performs.

External inputs are modelled as oracles:
* `fs : String → Bool` answers `os.path.exists` queries;
* a `List Bool` gives the successive answers of a polled flag
  (`is_training`, `is_testing`, `is_autopilot`, or the `done` component of
  `env.step`); when the list is exhausted the poll is treated as answering
  `false`, i.e. the supplied list is the finite prefix of answers under which
  the loop is observed (the Python loops are unbounded).

Python object identity (which claims C9 is about) is modelled by giving every
collaborator object a numeric reference id: `VAEController(...)` and
`DDPG(...)` / `DDPG.load(...)` allocate fresh ids, method calls such as
`vae.load(path)` mutate in place and keep the id, and `self.ddpg = ...`
rebinds the field to the new id.
-/

namespace EagleMK4

/-- Externally visible actions performed by the controller.  `probe` is an
`os.path.exists` call on a checkpoint path, `sleep` carries the duration in
seconds passed to `time.sleep`, the `sample*` events record a read of an
environment flag together with the answer, and `trainingSession` /
`testingSession` mark the dispatch of `run()` into the corresponding
subroutine (whose own trace is modelled by `run_training` / `run_testing`). -/
inductive Event where
  | envMake
  | vaeInit
  | setVae
  | probe (path : String)
  | ddpgLoad
  | vaeLoad
  | initDDPG
  | learn (do_ddpg_training : Bool)
  | ddpgSave
  | vaeSave
  | envReset (obs : Nat)
  | predict (obs : Nat)
  | envStep (done : Bool) (obs : Nat)
  | printAction
  | printMsg
  | sleep (duration : ℚ)
  | sampleAutopilot (value : Bool)
  | sampleTraining (value : Bool)
  | sampleTesting (value : Bool)
  | trainingSession
  | testingSession
  deriving DecidableEq, Repr

/-- Source: `HZ = 20.0` (class attribute).  All sleeps are `time.sleep(1/HZ)`
or `time.sleep(1.0/HZ)`, i.e. one twentieth of a second. -/
def HZ : ℚ := 20

/-- Source: `PATH_MODEL_DDPG = "ddpg.pkl"`. -/
def PATH_MODEL_DDPG : String := "ddpg.pkl"

/-- Source: `PATH_MODEL_VAE = "vae.ckpt"`. -/
def PATH_MODEL_VAE : String := "vae.ckpt"

/-- Model of `os.path.join(a, b)` for the simple relative names used here. -/
def joinPath (a b : String) : String := a ++ "/" ++ b

/-- Configuration read from the ROS parameter store in `__init__` via
`rospy.get_param`; the numeric hyperparameters other than
`ddpg_skip_episodes` are only forwarded to the opaque collaborators, so the
state model does not track them further. -/
structure Params where
  model_path : String
  vae_batch_size : Nat := 64
  vae_buffer_size : Nat := 500
  vae_epoch_number : Nat := 10
  image_height : Nat := 80
  image_width : Nat := 160
  image_channels : Nat := 3
  ddpg_batch_size : Nat := 64
  ddpg_memory_size : Nat := 1000
  ddpg_training_steps : Nat := 300
  ddpg_skip_episodes : Nat := 5
  deriving Repr, DecidableEq

/-- Instance fields of `Controller` relevant to the claims.  `vaeRef`,
`envVaeRef` and `ddpgRef` are the object ids currently bound to `self.vae`,
to the VAE handed to the environment by `set_vae`, and to `self.ddpg`;
`nextRef` is the next fresh object id. -/
structure ControllerState where
  model_path : String
  ddpg_path : String
  vae_path : String
  ddpg_skip_episodes : Nat
  vaeRef : Nat
  envVaeRef : Nat
  ddpgRef : Nat
  nextRef : Nat
  deriving Repr, DecidableEq

/-- Source: `Controller._any_precompiled_models`.  Returns the probe events
performed (Python's `and` short-circuits, so the second path is probed only
when the first exists) together with the boolean result. -/
def any_precompiled_models (fs : String → Bool) (ddpg_path vae_path : String) :
    List Event × Bool :=
  if fs ddpg_path then
    if fs vae_path then
      ([Event.probe ddpg_path, Event.probe vae_path], true)
    else
      ([Event.probe ddpg_path, Event.probe vae_path], false)
  else
    ([Event.probe ddpg_path], false)

/-- Source: `Controller._wait_autopilot`.  Each iteration sleeps `1/HZ`
seconds then samples `is_autopilot()`, returning when it is observed true.
The argument list gives the successive answers of the flag. -/
def wait_autopilot : List Bool → List Event
  | [] => []
  | a :: rest =>
    Event.sleep (1 / HZ) :: Event.sampleAutopilot a ::
      (if a then [] else wait_autopilot rest)

/-- Source: `Controller.__init__` up to (and excluding) the final
`_wait_autopilot()` / `run()` calls, which are modelled separately.  Returns
the event trace together with either the constructed state or the exception
message.  On the missing-directory path the trace is empty: the exception is
raised before `gym.make`, before the VAE is constructed, and before any
checkpoint path is probed. -/
def controllerInit (p : Params) (fs : String → Bool) :
    List Event × Except String ControllerState :=
  if fs p.model_path then
    let ddpg_path := joinPath p.model_path PATH_MODEL_DDPG
    let vae_path := joinPath p.model_path PATH_MODEL_VAE
    let pre := any_precompiled_models fs ddpg_path vae_path
    if pre.2 then
      ([Event.envMake, Event.vaeInit, Event.setVae] ++ pre.1 ++
         [Event.ddpgLoad, Event.vaeLoad],
       Except.ok
         { model_path := p.model_path
           ddpg_path := ddpg_path
           vae_path := vae_path
           ddpg_skip_episodes := 0
           vaeRef := 0
           envVaeRef := 0
           ddpgRef := 1
           nextRef := 2 })
    else
      ([Event.envMake, Event.vaeInit, Event.setVae] ++ pre.1 ++
         [Event.initDDPG],
       Except.ok
         { model_path := p.model_path
           ddpg_path := ddpg_path
           vae_path := vae_path
           ddpg_skip_episodes := p.ddpg_skip_episodes
           vaeRef := 0
           envVaeRef := 0
           ddpgRef := 1
           nextRef := 2 })
  else
    ([], Except.error (p.model_path ++ " does not exist."))

/-- Source: the `while self.env.unwrapped.is_training():` loop of
`Controller.run_training`.  `episode` and `do_ddpg_training` are the local
variables; `qs` gives the answers of the successive `is_training()` polls and
`autop` the autopilot answer lists consumed by the per-episode
`_wait_autopilot()` call. -/
def runTrainingLoop (skip : Nat) (episode : Nat) (do_ddpg_training : Bool) :
    List Bool → List (List Bool) → List Event
  | [], _ => []
  | q :: qs, autop =>
    if q then
      let dd := if episode > skip then true else do_ddpg_training
      Event.learn dd ::
        (wait_autopilot (autop.headD []) ++
          runTrainingLoop skip (episode + 1) dd qs autop.tail)
    else []

/-- Source: `Controller.run_training`.  The episode counter starts at 1 and
the training flag starts false; after the loop exits, `ddpg.save` and
`vae.save` are performed unconditionally. -/
def run_training (skip : Nat) (qs : List Bool) (autop : List (List Bool)) :
    List Event :=
  runTrainingLoop skip 1 false qs autop ++ [Event.ddpgSave, Event.vaeSave]

/-- Source: the inner `while True:` loop of `Controller.run_testing`: sleep,
`action = ddpg.predict(obs)`, `obs, ... , done, ... = env.step(action)`,
print the action, and break on the first step whose `done` is true.  The
argument list gives the `done` flags of the successive steps.  Observations
are opaque values; we label them with episode-local ids so that the data flow
of the local variable `obs` is visible in the trace: `predict obs` consumes
the current value and `envStep d (obs+1)` is the step that overwrites it. -/
def testingEpisode (obs : Nat) : List Bool → List Event
  | [] => []
  | d :: ds =>
    Event.sleep (1 / HZ) :: Event.predict obs :: Event.envStep d (obs + 1) ::
      Event.printAction :: (if d then [] else testingEpisode (obs + 1) ds)

/-- Source: the `while self.env.unwrapped.is_testing():` loop of the
precompiled branch of `run_testing`.  Each entered episode first performs
`obs = self.env.reset()` (labelled id 0 for that episode) and then runs
`testingEpisode`; episode `i` consumes the `i`-th done-flag list. -/
def testingLoop : List Bool → List (List Bool) → List Event
  | [], _ => []
  | q :: qs, ds =>
    if q then
      Event.envReset 0 ::
        (testingEpisode 0 (ds.headD []) ++ testingLoop qs ds.tail)
    else []

/-- Source: the `while self.env.unwrapped.is_testing(): time.sleep(1.0/HZ)`
idle loop of the no-checkpoint branch of `run_testing`. -/
def idleLoop : List Bool → List Event
  | [] => []
  | q :: qs => if q then Event.sleep (1 / HZ) :: idleLoop qs else []

/-- Source: `Controller.run_testing`.  If `_any_precompiled_models()` holds,
`self.ddpg` is rebound to a freshly loaded object and `self.vae.load` mutates
the existing VAE in place, then the testing loop runs; otherwise an
instructional message is printed and the routine idles.  Returns the event
trace and the updated controller state. -/
def run_testing (fs : String → Bool) (st : ControllerState)
    (qs : List Bool) (ds : List (List Bool)) : List Event × ControllerState :=
  let pre := any_precompiled_models fs st.ddpg_path st.vae_path
  if pre.2 then
    (pre.1 ++ Event.ddpgLoad :: Event.vaeLoad :: testingLoop qs ds,
     { st with ddpgRef := st.nextRef, nextRef := st.nextRef + 1 })
  else
    (pre.1 ++ Event.printMsg :: idleLoop qs, st)

/-- Source: `Controller.run`.  Each iteration samples `is_training()` and, if
it is false, `is_testing()` (Python's `elif` short-circuits), dispatching to
the corresponding subroutine; there is no sleep in this loop.  Each pair in
the list gives the answers the two flags would return on that iteration; the
list bounds how many iterations of the unbounded loop are observed. -/
def runDispatch : List (Bool × Bool) → List Event
  | [] => []
  | (tr, te) :: ps =>
    Event.sampleTraining tr ::
      (if tr then Event.trainingSession :: runDispatch ps
       else
         Event.sampleTesting te ::
           (if te then Event.testingSession :: runDispatch ps
            else runDispatch ps))

/-- The successive values of `do_ddpg_training` passed to `ddpg.learn`,
extracted from a trace. -/
def learnFlags (es : List Event) : List Bool :=
  es.filterMap fun e =>
    match e with
    | Event.learn b => some b
    | _ => none

/-- True on the events that record a sampling of the mode flags in `run`. -/
def isModeSample : Event → Bool
  | Event.sampleTraining _ => true
  | Event.sampleTesting _ => true
  | _ => false

/-- True on sleep events. -/
def isSleep : Event → Bool
  | Event.sleep _ => true
  | _ => false

/-- Formalisation of the sentence of claim C8: every mode-flag sampling in
the trace is immediately preceded by a sleep event. -/
def everySamplePrecededBySleep (tr : List Event) : Prop :=
  ∀ i (h : i < tr.length), isModeSample (tr.get ⟨i, h⟩) = true →
    ∃ hp : i - 1 < tr.length,
      0 < i ∧ isSleep (tr.get ⟨i - 1, hp⟩) = true

instance (tr : List Event) : Decidable (everySamplePrecededBySleep tr) := by
  unfold everySamplePrecededBySleep
  infer_instance

/-- Concrete parameter record used to instantiate the theorems below. -/
def pW : Params := { model_path := "/m" }

/-- File-system oracle on which every path exists. -/
def fsAll : String → Bool := fun _ => true

/-- File-system oracle on which no path exists. -/
def fsNone : String → Bool := fun _ => false

/-- File-system oracle on which only the model directory exists. -/
def fsDirOnly : String → Bool := fun s => s == "/m"

/-- The controller state produced by `controllerInit pW fsAll`. -/
def stW : ControllerState :=
  { model_path := "/m"
    ddpg_path := "/m/ddpg.pkl"
    vae_path := "/m/vae.ckpt"
    ddpg_skip_episodes := 0
    vaeRef := 0
    envVaeRef := 0
    ddpgRef := 1
    nextRef := 2 }

/-! Helper lemmas about the shapes of the traces. -/

theorem mem_wait_autopilot {e : Event} {l : List Bool} (h : e ∈ wait_autopilot l) :
    isSleep e = true ∨ ∃ b, e = Event.sampleAutopilot b := by
  induction l with
  | nil => simp [wait_autopilot] at h
  | cons a rest ih =>
    simp only [wait_autopilot, List.mem_cons] at h
    rcases h with h | h | h
    · exact Or.inl (by simp [h, isSleep])
    · exact Or.inr ⟨a, h⟩
    · cases a with
      | true => simp at h
      | false => exact ih (by simpa using h)

theorem learnFlags_cons_learn (b : Bool) (l : List Event) :
    learnFlags (Event.learn b :: l) = b :: learnFlags l := by
  simp [learnFlags]

theorem learnFlags_append (a b : List Event) :
    learnFlags (a ++ b) = learnFlags a ++ learnFlags b := by
  simp [learnFlags, List.filterMap_append]

theorem learnFlags_wait_autopilot (l : List Bool) :
    learnFlags (wait_autopilot l) = [] := by
  induction l with
  | nil => rfl
  | cons a rest ih =>
    cases a with
    | true => simp [wait_autopilot, learnFlags]
    | false =>
      simp only [wait_autopilot, if_neg Bool.false_ne_true]
      simpa [learnFlags] using ih

theorem flag_step (skip e i : Nat) (dd : Bool) :
    (decide (e + 1 + i > skip) || (if e > skip then true else dd)) =
      (decide (e + (i + 1) > skip) || dd) := by
  by_cases h : e > skip
  · have h1 : e + 1 + i > skip := by omega
    have h2 : e + (i + 1) > skip := by omega
    simp [h, h1, h2]
  · have h3 : e + 1 + i = e + (i + 1) := by omega
    simp [h, h3]

theorem learnFlags_runTrainingLoop (skip : Nat) (qs : List Bool) :
    ∀ (e : Nat) (dd : Bool) (autop : List (List Bool)),
      learnFlags (runTrainingLoop skip e dd qs autop) =
        (List.range ((qs.takeWhile id).length)).map
          (fun i => decide (e + i > skip) || dd) := by
  induction qs with
  | nil => intro e dd autop; simp [runTrainingLoop, learnFlags]
  | cons q qs ih =>
    intro e dd autop
    cases q with
    | false => simp [runTrainingLoop, List.takeWhile_cons, learnFlags]
    | true =>
      have hred : runTrainingLoop skip e dd (true :: qs) autop =
          Event.learn (if e > skip then true else dd) ::
            (wait_autopilot (autop.headD []) ++
              runTrainingLoop skip (e + 1) (if e > skip then true else dd)
                qs autop.tail) := by
        simp [runTrainingLoop]
      rw [hred, learnFlags_cons_learn, learnFlags_append,
        learnFlags_wait_autopilot, List.nil_append, ih]
      have hfun : (fun i => decide (e + 1 + i > skip) ||
            (if e > skip then true else dd)) =
          (fun i => decide (e + (i + 1) > skip) || dd) :=
        funext fun i => flag_step skip e i dd
      have hhead : (if e > skip then true else dd) = (decide (e + 0 > skip) || dd) := by
        by_cases h : e > skip <;> simp [h]
      rw [hfun, hhead]
      simp only [List.takeWhile_cons, id, if_true, List.length_cons,
        List.range_succ_eq_map, List.map_cons, List.map_map]
      simp [Function.comp]

theorem learnFlags_run_training (skip : Nat) (qs : List Bool)
    (autop : List (List Bool)) :
    learnFlags (run_training skip qs autop) =
      (List.range ((qs.takeWhile id).length)).map
        (fun i => decide (i + 1 > skip)) := by
  unfold run_training
  rw [learnFlags_append, learnFlags_runTrainingLoop]
  have h1 : learnFlags [Event.ddpgSave, Event.vaeSave] = [] := by simp [learnFlags]
  rw [h1, List.append_nil]
  congr 1
  funext i
  have : 1 + i = i + 1 := by omega
  simp [this]

theorem probes_eq (fs : String → Bool) (d v : String) :
    (any_precompiled_models fs d v).1 =
      if fs d then [Event.probe d, Event.probe v] else [Event.probe d] := by
  unfold any_precompiled_models
  by_cases hd : fs d = true <;> by_cases hv : fs v = true <;> simp [hd, hv]

theorem any_precompiled_snd (fs : String → Bool) (d v : String) :
    (any_precompiled_models fs d v).2 = (fs d && fs v) := by
  unfold any_precompiled_models
  cases hd : fs d <;> cases hv : fs v <;> simp [hd, hv]

theorem mem_probes {fs : String → Bool} {d v : String} {e : Event}
    (h : e ∈ (any_precompiled_models fs d v).1) : ∃ p, e = Event.probe p := by
  rw [probes_eq] at h
  by_cases hd : fs d = true
  · rw [if_pos hd] at h
    rcases List.mem_cons.mp h with h | h
    · exact ⟨d, h⟩
    · exact ⟨v, by simpa using h⟩
  · rw [if_neg hd] at h
    exact ⟨d, by simpa using h⟩

theorem mem_runTrainingLoop {e : Event} {skip : Nat} {qs : List Bool} :
    ∀ {ep : Nat} {dd : Bool} {autop : List (List Bool)},
      e ∈ runTrainingLoop skip ep dd qs autop →
      (∃ b, e = Event.learn b) ∨ isSleep e = true ∨
        ∃ b, e = Event.sampleAutopilot b := by
  induction qs with
  | nil => intro ep dd autop h; simp [runTrainingLoop] at h
  | cons q qs ih =>
    intro ep dd autop h
    cases q with
    | false => simp [runTrainingLoop] at h
    | true =>
      simp only [runTrainingLoop, if_pos, List.mem_cons, List.mem_append] at h
      rcases h with h | h | h
      · exact Or.inl ⟨_, h⟩
      · exact Or.inr (mem_wait_autopilot h)
      · exact ih h

theorem mem_testingEpisode {e : Event} {ds : List Bool} :
    ∀ {obs : Nat}, e ∈ testingEpisode obs ds →
      isSleep e = true ∨ (∃ o, e = Event.predict o) ∨
        (∃ b o, e = Event.envStep b o) ∨ e = Event.printAction := by
  induction ds with
  | nil => intro obs h; simp [testingEpisode] at h
  | cons d ds ih =>
    intro obs h
    simp only [testingEpisode, List.mem_cons] at h
    rcases h with h | h | h | h | h
    · exact Or.inl (by simp [h, isSleep])
    · exact Or.inr (Or.inl ⟨obs, h⟩)
    · exact Or.inr (Or.inr (Or.inl ⟨d, obs + 1, h⟩))
    · exact Or.inr (Or.inr (Or.inr h))
    · cases d with
      | true => simp at h
      | false => exact ih (by simpa using h)

theorem mem_testingLoop {e : Event} {qs : List Bool} :
    ∀ {ds : List (List Bool)}, e ∈ testingLoop qs ds →
      (∃ o, e = Event.envReset o) ∨ isSleep e = true ∨
        (∃ o, e = Event.predict o) ∨ (∃ b o, e = Event.envStep b o) ∨
        e = Event.printAction := by
  induction qs with
  | nil => intro ds h; simp [testingLoop] at h
  | cons q qs ih =>
    intro ds h
    cases q with
    | false => simp [testingLoop] at h
    | true =>
      simp only [testingLoop, if_pos, List.mem_cons, List.mem_append] at h
      rcases h with h | h | h
      · exact Or.inl ⟨0, h⟩
      · exact Or.inr (mem_testingEpisode h)
      · exact ih h

theorem mem_idleLoop {e : Event} {qs : List Bool} (h : e ∈ idleLoop qs) :
    e = Event.sleep (1 / HZ) := by
  induction qs with
  | nil => simp [idleLoop] at h
  | cons q qs ih =>
    cases q with
    | false => simp [idleLoop] at h
    | true =>
      simp only [idleLoop, if_pos, List.mem_cons] at h
      rcases h with h | h
      · exact h
      · exact ih h

theorem mem_run_testing {fs : String → Bool} {st : ControllerState}
    {qs : List Bool} {ds : List (List Bool)} {e : Event}
    (h : e ∈ (run_testing fs st qs ds).1) :
    (∃ p, e = Event.probe p) ∨ e = Event.ddpgLoad ∨ e = Event.vaeLoad ∨
      (∃ o, e = Event.envReset o) ∨ isSleep e = true ∨
      (∃ o, e = Event.predict o) ∨ (∃ b o, e = Event.envStep b o) ∨
      e = Event.printAction ∨ e = Event.printMsg := by
  unfold run_testing at h
  by_cases hp : (any_precompiled_models fs st.ddpg_path st.vae_path).2 = true
  · simp only [hp, if_true, List.mem_append, List.mem_cons] at h
    rcases h with h | h | h | h
    · exact Or.inl (mem_probes h)
    · exact Or.inr (Or.inl h)
    · exact Or.inr (Or.inr (Or.inl h))
    · rcases mem_testingLoop h with h | h | h | h | h
      · exact Or.inr (Or.inr (Or.inr (Or.inl h)))
      · exact Or.inr (Or.inr (Or.inr (Or.inr (Or.inl h))))
      · exact Or.inr (Or.inr (Or.inr (Or.inr (Or.inr (Or.inl h)))))
      · exact Or.inr (Or.inr (Or.inr (Or.inr (Or.inr (Or.inr (Or.inl h))))))
      · exact Or.inr (Or.inr (Or.inr (Or.inr (Or.inr (Or.inr (Or.inr (Or.inl h)))))))
  · rw [if_neg hp] at h
    simp only [List.mem_append, List.mem_cons] at h
    rcases h with h | h | h
    · exact Or.inl (mem_probes h)
    · exact Or.inr (Or.inr (Or.inr (Or.inr (Or.inr (Or.inr (Or.inr (Or.inr h)))))))
    · have := mem_idleLoop h
      exact Or.inr (Or.inr (Or.inr (Or.inr (Or.inl (by simp [this, isSleep])))))

theorem mem_runDispatch {e : Event} {ps : List (Bool × Bool)}
    (h : e ∈ runDispatch ps) :
    isModeSample e = true ∨ e = Event.trainingSession ∨
      e = Event.testingSession := by
  induction ps with
  | nil => simp [runDispatch] at h
  | cons p ps ih =>
    rcases p with ⟨tr, te⟩
    simp only [runDispatch, List.mem_cons] at h
    rcases h with h | h
    · exact Or.inl (by simp [h, isModeSample])
    · cases tr with
      | true =>
        simp only [if_pos, List.mem_cons] at h
        rcases h with h | h
        · exact Or.inr (Or.inl h)
        · exact ih h
      | false =>
        simp only [Bool.false_eq_true, if_false, List.mem_cons] at h
        rcases h with h | h
        · exact Or.inl (by simp [h, isModeSample])
        · cases te with
          | true =>
            simp only [if_pos, List.mem_cons] at h
            rcases h with h | h
            · exact Or.inr (Or.inr h)
            · exact ih h
          | false =>
            simp only [Bool.false_eq_true, if_false] at h
            exact ih h

theorem headD_nil_getD (ds : List (List Bool)) : ds.headD [] = ds.getD 0 [] := by
  cases ds <;> rfl

theorem getD_tail (ds : List (List Bool)) (i : Nat) :
    ds.tail.getD i [] = ds.getD (i + 1) [] := by
  cases ds <;> rfl

theorem testingEpisode_eq (ds : List Bool) : ∀ obs : Nat,
    testingEpisode obs ds =
      ((List.range ((ds.takeWhile (fun b => !b)).length + 1)).zip
          (ds.take ((ds.takeWhile (fun b => !b)).length + 1))).flatMap
        (fun p => [Event.sleep (1 / HZ), Event.predict (obs + p.1),
          Event.envStep p.2 (obs + p.1 + 1), Event.printAction]) := by
  induction ds with
  | nil => intro obs; simp [testingEpisode]
  | cons d ds ih =>
    intro obs
    cases d with
    | true =>
      simp [testingEpisode, List.takeWhile_cons, List.range_succ]
    | false =>
      have hLHS : testingEpisode obs (false :: ds) =
          Event.sleep (1 / HZ) :: Event.predict obs ::
            Event.envStep false (obs + 1) :: Event.printAction ::
            testingEpisode (obs + 1) ds := by
        simp [testingEpisode]
      conv_rhs =>
        rw [show List.takeWhile (fun b => !b) (false :: ds) =
              false :: List.takeWhile (fun b => !b) ds from by
            simp [List.takeWhile_cons]]
        rw [List.length_cons, List.range_succ_eq_map, List.take_succ_cons,
          List.zip_cons_cons, List.flatMap_cons, List.zip_map_left,
          List.flatMap_map]
      rw [hLHS, ih (obs + 1)]
      simp only [List.cons_append, List.nil_append, Nat.add_zero,
        List.cons.injEq, true_and]
      congr 1
      funext p
      rcases p with ⟨i, b⟩
      simp only [Prod.map, id]
      have h1 : obs + 1 + i = obs + Nat.succ i := by omega
      rw [h1]

theorem testingLoop_eq (qs : List Bool) : ∀ ds : List (List Bool),
    testingLoop qs ds =
      (List.range ((qs.takeWhile id).length)).flatMap
        (fun i => Event.envReset 0 :: testingEpisode 0 (ds.getD i [])) := by
  induction qs with
  | nil => intro ds; simp [testingLoop]
  | cons q qs ih =>
    intro ds
    cases q with
    | false => simp [testingLoop, List.takeWhile_cons]
    | true =>
      have hLHS : testingLoop (true :: qs) ds =
          Event.envReset 0 ::
            (testingEpisode 0 (ds.headD []) ++ testingLoop qs ds.tail) := by
        simp [testingLoop]
      rw [hLHS, ih ds.tail]
      simp only [List.takeWhile_cons, id, if_pos, List.length_cons,
        List.range_succ_eq_map, List.flatMap_cons, List.flatMap_map]
      rw [headD_nil_getD]
      have hfun : ∀ i : Nat,
          (Event.envReset 0 :: testingEpisode 0 (ds.tail.getD i [])) =
          (Event.envReset 0 :: testingEpisode 0 (ds.getD (Nat.succ i) [])) := by
        intro i
        rw [getD_tail]
      simp [funext hfun]

/-! Claim theorems. -/

/-- C1: in every call to `run_training`, `ddpg.learn` is invoked with
`do_ddpg_training = false` for every episode whose number is at most
`ddpg_skip_episodes` and with `do_ddpg_training = true` for every episode
whose number exceeds it, the episode counter starting at 1 and incremented
after each learn call: the list of flags passed to the successive `learn`
calls is exactly `[decide (1 > skip), decide (2 > skip), ...]`, one entry per
episode the training loop runs. -/
theorem C1_learn_flag_schedule (skip : Nat) (qs : List Bool)
    (autop : List (List Bool)) :
    learnFlags (run_training skip qs autop) =
      (List.range ((qs.takeWhile id).length)).map
        (fun i => decide (i + 1 > skip)) :=
  learnFlags_run_training skip qs autop

/-- Witness for C1: skip count 2, three completed episodes, flags
false, false, true. -/
theorem C1_learn_flag_schedule_witness :
    learnFlags (run_training 2 [true, true, true, false] [[true]]) =
      (List.range (([true, true, true, false].takeWhile id).length)).map
        (fun i => decide (i + 1 > 2)) :=
  C1_learn_flag_schedule 2 [true, true, true, false] [[true]]

/-- C10: within a single `run_training` call, `do_ddpg_training` is monotone:
once a `learn` call receives the flag `true`, every later `learn` call of the
same training session receives `true` as well. -/
theorem C10_flag_monotone (skip : Nat) (qs : List Bool)
    (autop : List (List Bool)) (i j : Nat) (hij : i ≤ j)
    (hi : i < (learnFlags (run_training skip qs autop)).length)
    (hj : j < (learnFlags (run_training skip qs autop)).length)
    (htrue : (learnFlags (run_training skip qs autop)).get ⟨i, hi⟩ = true) :
    (learnFlags (run_training skip qs autop)).get ⟨j, hj⟩ = true := by
  have hc := learnFlags_run_training skip qs autop
  rw [List.get_of_eq hc] at htrue ⊢
  simp only [List.get_eq_getElem, Fin.coe_cast, List.getElem_map,
    List.getElem_range, decide_eq_true_eq] at htrue ⊢
  omega

/-- Witness for C10: skip count 1, three episodes; the flag is true at
episode 2 (index 1) and stays true at episode 3 (index 2). -/
theorem C10_flag_monotone_witness :
    (learnFlags (run_training 1 [true, true, true, false] [])).get
        ⟨2, by decide⟩ = true :=
  C10_flag_monotone 1 [true, true, true, false] [] 1 2 (by decide)
    (by decide) (by decide) (by decide)

/-- C2: every execution of `run_training` performs `ddpg.save` and `vae.save`
exactly once each, only after the training loop has exited (the trace is the
loop trace, which contains no save, followed by exactly the two saves), and
no save event occurs anywhere in a `run_testing` trace. -/
theorem C2_save_exactly_once (skip : Nat) (qs : List Bool)
    (autop : List (List Bool)) (fs : String → Bool) (st : ControllerState)
    (tq : List Bool) (ds : List (List Bool)) :
    (run_training skip qs autop).count Event.ddpgSave = 1 ∧
    (run_training skip qs autop).count Event.vaeSave = 1 ∧
    run_training skip qs autop =
      runTrainingLoop skip 1 false qs autop ++
        [Event.ddpgSave, Event.vaeSave] ∧
    Event.ddpgSave ∉ runTrainingLoop skip 1 false qs autop ∧
    Event.vaeSave ∉ runTrainingLoop skip 1 false qs autop ∧
    Event.ddpgSave ∉ (run_testing fs st tq ds).1 ∧
    Event.vaeSave ∉ (run_testing fs st tq ds).1 := by
  have hd : Event.ddpgSave ∉ runTrainingLoop skip 1 false qs autop := by
    intro hmem
    rcases mem_runTrainingLoop hmem with ⟨b, hb⟩ | hs | ⟨b, hb⟩
    · simp at hb
    · simp [isSleep] at hs
    · simp at hb
  have hv : Event.vaeSave ∉ runTrainingLoop skip 1 false qs autop := by
    intro hmem
    rcases mem_runTrainingLoop hmem with ⟨b, hb⟩ | hs | ⟨b, hb⟩
    · simp at hb
    · simp [isSleep] at hs
    · simp at hb
  have htd : Event.ddpgSave ∉ (run_testing fs st tq ds).1 := by
    intro hmem
    rcases mem_run_testing hmem with ⟨p, hp⟩ | h | h | ⟨o, ho⟩ | hs | ⟨o, ho⟩ |
      ⟨b, o, hb⟩ | h | h <;> simp [isSleep] at *
  have htv : Event.vaeSave ∉ (run_testing fs st tq ds).1 := by
    intro hmem
    rcases mem_run_testing hmem with ⟨p, hp⟩ | h | h | ⟨o, ho⟩ | hs | ⟨o, ho⟩ |
      ⟨b, o, hb⟩ | h | h <;> simp [isSleep] at *
  refine ⟨?_, ?_, rfl, hd, hv, htd, htv⟩
  · unfold run_training
    rw [List.count_append, List.count_eq_zero_of_not_mem hd]
    decide
  · unfold run_training
    rw [List.count_append, List.count_eq_zero_of_not_mem hv]
    decide

/-- Witness for C2: one training episode; both saves appear exactly once and
no save occurs in a concrete testing trace. -/
theorem C2_save_exactly_once_witness :
    (run_training 5 [true, false] [[true]]).count Event.ddpgSave = 1 ∧
    Event.ddpgSave ∉ (run_testing fsNone stW [true, false] []).1 :=
  ⟨(C2_save_exactly_once 5 [true, false] [[true]] fsNone stW
      [true, false] []).1,
   (C2_save_exactly_once 5 [true, false] [[true]] fsNone stW
      [true, false] []).2.2.2.2.2.1⟩

/-- C3: if at construction time both checkpoint files exist (under a model
directory that itself exists, without which construction aborts), the
constructor loads the policy via `DDPG.load` and the perception module via
`vae.load`, and sets `ddpg_skip_episodes` to zero. -/
theorem C3_precompiled_load (p : Params) (fs : String → Bool)
    (hmp : fs p.model_path = true)
    (hd : fs (joinPath p.model_path PATH_MODEL_DDPG) = true)
    (hv : fs (joinPath p.model_path PATH_MODEL_VAE) = true) :
    Event.ddpgLoad ∈ (controllerInit p fs).1 ∧
    Event.vaeLoad ∈ (controllerInit p fs).1 ∧
    ∃ st, (controllerInit p fs).2 = Except.ok st ∧
      st.ddpg_skip_episodes = 0 := by
  have hpre : (any_precompiled_models fs (joinPath p.model_path PATH_MODEL_DDPG)
      (joinPath p.model_path PATH_MODEL_VAE)).2 = true := by
    rw [any_precompiled_snd, hd, hv]
    rfl
  refine ⟨?_, ?_, ?_⟩ <;> simp [controllerInit, hmp, hpre]

/-- Witness for C3: all paths exist under the oracle `fsAll`. -/
theorem C3_precompiled_load_witness :
    Event.ddpgLoad ∈ (controllerInit pW fsAll).1 ∧
    ∃ st, (controllerInit pW fsAll).2 = Except.ok st ∧
      st.ddpg_skip_episodes = 0 :=
  ⟨(C3_precompiled_load pW fsAll rfl rfl rfl).1,
   (C3_precompiled_load pW fsAll rfl rfl rfl).2.2⟩

/-- C4: `_any_precompiled_models` returns true iff both checkpoint files
exist; when at least one is absent (and the model directory exists) the
constructor initializes a fresh policy via `_init_ddpg` and keeps the
`ddpg_skip_episodes` value read from the parameter store. -/
theorem C4_fresh_init (fs : String → Bool) (d v : String) (p : Params)
    (hmp : fs p.model_path = true)
    (hnot : ¬(fs (joinPath p.model_path PATH_MODEL_DDPG) = true ∧
        fs (joinPath p.model_path PATH_MODEL_VAE) = true)) :
    ((any_precompiled_models fs d v).2 = true ↔
      (fs d = true ∧ fs v = true)) ∧
    Event.initDDPG ∈ (controllerInit p fs).1 ∧
    ∃ st, (controllerInit p fs).2 = Except.ok st ∧
      st.ddpg_skip_episodes = p.ddpg_skip_episodes := by
  have hiff : ∀ d' v' : String, ((any_precompiled_models fs d' v').2 = true ↔
      (fs d' = true ∧ fs v' = true)) := by
    intro d' v'
    rw [any_precompiled_snd]
    simp [Bool.and_eq_true]
  have hpre : (any_precompiled_models fs (joinPath p.model_path PATH_MODEL_DDPG)
      (joinPath p.model_path PATH_MODEL_VAE)).2 = false := by
    rcases Bool.eq_false_or_eq_true
        ((any_precompiled_models fs (joinPath p.model_path PATH_MODEL_DDPG)
          (joinPath p.model_path PATH_MODEL_VAE)).2) with hf | ht
    · exact absurd ((hiff _ _).mp hf) hnot
    · exact ht
  refine ⟨hiff d v, ?_, ?_⟩ <;> simp [controllerInit, hmp, hpre]

/-- Witness for C4: the directory exists but neither checkpoint file does. -/
theorem C4_fresh_init_witness :
    Event.initDDPG ∈ (controllerInit pW fsDirOnly).1 ∧
    ∃ st, (controllerInit pW fsDirOnly).2 = Except.ok st ∧
      st.ddpg_skip_episodes = pW.ddpg_skip_episodes :=
  ⟨(C4_fresh_init fsDirOnly "/m/ddpg.pkl" "/m/vae.ckpt" pW rfl
      (by decide)).2.1,
   (C4_fresh_init fsDirOnly "/m/ddpg.pkl" "/m/vae.ckpt" pW rfl
      (by decide)).2.2⟩

/-- C5: if the configured model directory does not exist, construction
raises an exception whose message names the missing path and performs no
further side effects: the event trace is empty, so no environment is made,
no collaborator is constructed or loaded, and no checkpoint path is
probed. -/
theorem C5_missing_dir (p : Params) (fs : String → Bool)
    (h : fs p.model_path = false) :
    controllerInit p fs =
      ([], Except.error (p.model_path ++ " does not exist.")) := by
  unfold controllerInit
  rw [if_neg (by simp [h])]

/-- Witness for C5: no path exists under the oracle `fsNone`. -/
theorem C5_missing_dir_witness :
    controllerInit pW fsNone =
      ([], Except.error (pW.model_path ++ " does not exist.")) :=
  C5_missing_dir pW fsNone rfl

/-- C8 as stated is false on the code: `run` contains no sleep, so a
mode-flag sampling is not preceded by any sleep event.  Concretely, one
dispatch iteration with both flags false yields a trace whose samplings
violate the claimed property. -/
theorem C8_counterexample :
    ¬ everySamplePrecededBySleep (runDispatch [(false, false)]) := by
  decide

/-- C8 amended: the top-level dispatch loop `run` samples the mode flags
with no sleep anywhere in its own loop; when neither flag is set it re-samples
immediately (busy-spins), producing back-to-back sample events and no sleep
events.  The fixed 1/20-second sleeps occur only inside `_wait_autopilot`
and the testing/idle loops. -/
theorem C8_dispatch_busy_spins (ps : List (Bool × Bool)) (n : Nat) :
    (∀ d, Event.sleep d ∉ runDispatch ps) ∧
    runDispatch (List.replicate n (false, false)) =
      (List.replicate n
        [Event.sampleTraining false, Event.sampleTesting false]).flatten := by
  constructor
  · intro d hmem
    rcases mem_runDispatch hmem with hs | h | h
    · simp [isModeSample] at hs
    · simp at h
    · simp at h
  · induction n with
    | zero => simp [runDispatch]
    | succ n ih => simp [List.replicate_succ, runDispatch, ih]

/-- Witness for C8's amended statement: two idle dispatch iterations. -/
theorem C8_dispatch_busy_spins_witness :
    runDispatch (List.replicate 2 (false, false)) =
      (List.replicate 2
        [Event.sampleTraining false, Event.sampleTesting false]).flatten :=
  (C8_dispatch_busy_spins [] 2).2

/-- C6: when `run_testing` starts with `_any_precompiled_models` false, the
policy is never invoked: the trace contains no `ddpg.predict`, no `env.step`
and no `env.reset`; beyond the existence probes the routine only prints the
instructional message and sleeps `1/HZ` seconds per `is_testing` poll until
the flag turns false, and the controller state is unchanged. -/
theorem C6_no_models_idle (fs : String → Bool) (st : ControllerState)
    (qs : List Bool) (ds : List (List Bool))
    (h : (any_precompiled_models fs st.ddpg_path st.vae_path).2 = false) :
    (run_testing fs st qs ds).1 =
      (any_precompiled_models fs st.ddpg_path st.vae_path).1 ++
        Event.printMsg :: idleLoop qs ∧
    (run_testing fs st qs ds).2 = st ∧
    (∀ e ∈ (run_testing fs st qs ds).1,
      (∃ p, e = Event.probe p) ∨ e = Event.printMsg ∨
        e = Event.sleep (1 / HZ)) ∧
    (∀ o, Event.predict o ∉ (run_testing fs st qs ds).1) ∧
    (∀ o, Event.envReset o ∉ (run_testing fs st qs ds).1) ∧
    (∀ b o, Event.envStep b o ∉ (run_testing fs st qs ds).1) := by
  have hne : ¬(any_precompiled_models fs st.ddpg_path st.vae_path).2 = true := by
    simp [h]
  have htr : run_testing fs st qs ds =
      ((any_precompiled_models fs st.ddpg_path st.vae_path).1 ++
        Event.printMsg :: idleLoop qs, st) := by
    unfold run_testing
    rw [if_neg hne]
  have hshape : ∀ e ∈ (run_testing fs st qs ds).1,
      (∃ p, e = Event.probe p) ∨ e = Event.printMsg ∨
        e = Event.sleep (1 / HZ) := by
    intro e he
    rw [htr] at he
    simp only [List.mem_append, List.mem_cons] at he
    rcases he with he | he | he
    · exact Or.inl (mem_probes he)
    · exact Or.inr (Or.inl he)
    · exact Or.inr (Or.inr (mem_idleLoop he))
  refine ⟨by rw [htr], by rw [htr], hshape, ?_, ?_, ?_⟩
  · intro o hmem
    rcases hshape _ hmem with ⟨pp, hp⟩ | hp | hp <;> simp at hp
  · intro o hmem
    rcases hshape _ hmem with ⟨pp, hp⟩ | hp | hp <;> simp at hp
  · intro b o hmem
    rcases hshape _ hmem with ⟨pp, hp⟩ | hp | hp <;> simp at hp

/-- Witness for C6: no checkpoints exist; two `is_testing` polls, the second
false. -/
theorem C6_no_models_idle_witness :
    (run_testing fsNone stW [true, false] []).1 =
      (any_precompiled_models fsNone stW.ddpg_path stW.vae_path).1 ++
        Event.printMsg :: idleLoop [true, false] ∧
    (∀ o, Event.predict o ∉ (run_testing fsNone stW [true, false] []).1) :=
  ⟨(C6_no_models_idle fsNone stW [true, false] [] rfl).1,
   (C6_no_models_idle fsNone stW [true, false] [] rfl).2.2.2.1⟩

/-- C7: when `run_testing` starts with `_any_precompiled_models` true, both
collaborators are reloaded exactly once, before any episode (the trace is
the probes, then `DDPG.load` and `vae.load`, then the episode loop); each
entered testing episode resets the environment and then alternates one
sleep, one `ddpg.predict` on the most recent observation, and one `env.step`
producing the next observation, exiting on the first step whose done flag is
true (the episode consumes the done flags up to and including the first
true one). -/
theorem C7_testing_with_models (fs : String → Bool) (st : ControllerState)
    (qs : List Bool) (ds : List (List Bool))
    (h : (any_precompiled_models fs st.ddpg_path st.vae_path).2 = true) :
    (run_testing fs st qs ds).1 =
      (any_precompiled_models fs st.ddpg_path st.vae_path).1 ++
        Event.ddpgLoad :: Event.vaeLoad :: testingLoop qs ds ∧
    (run_testing fs st qs ds).1.count Event.ddpgLoad = 1 ∧
    (run_testing fs st qs ds).1.count Event.vaeLoad = 1 ∧
    testingLoop qs ds =
      (List.range ((qs.takeWhile id).length)).flatMap
        (fun i => Event.envReset 0 :: testingEpisode 0 (ds.getD i [])) ∧
    (∀ (es : List Bool) (obs : Nat),
      testingEpisode obs es =
        ((List.range ((es.takeWhile (fun b => !b)).length + 1)).zip
            (es.take ((es.takeWhile (fun b => !b)).length + 1))).flatMap
          (fun pr => [Event.sleep (1 / HZ), Event.predict (obs + pr.1),
            Event.envStep pr.2 (obs + pr.1 + 1), Event.printAction])) := by
  have htr : (run_testing fs st qs ds).1 =
      (any_precompiled_models fs st.ddpg_path st.vae_path).1 ++
        Event.ddpgLoad :: Event.vaeLoad :: testingLoop qs ds := by
    unfold run_testing
    rw [if_pos h]
  have hpd : Event.ddpgLoad ∉
      (any_precompiled_models fs st.ddpg_path st.vae_path).1 := by
    intro hm
    rcases mem_probes hm with ⟨pp, hp⟩
    simp at hp
  have hpv : Event.vaeLoad ∉
      (any_precompiled_models fs st.ddpg_path st.vae_path).1 := by
    intro hm
    rcases mem_probes hm with ⟨pp, hp⟩
    simp at hp
  have hld : Event.ddpgLoad ∉ testingLoop qs ds := by
    intro hm
    rcases mem_testingLoop hm with ⟨o, ho⟩ | hs | ⟨o, ho⟩ | ⟨b, o, hb⟩ | hp <;>
      simp [isSleep] at *
  have hlv : Event.vaeLoad ∉ testingLoop qs ds := by
    intro hm
    rcases mem_testingLoop hm with ⟨o, ho⟩ | hs | ⟨o, ho⟩ | ⟨b, o, hb⟩ | hp <;>
      simp [isSleep] at *
  refine ⟨htr, ?_, ?_, testingLoop_eq qs ds, fun es obs => testingEpisode_eq es obs⟩
  · rw [htr, List.count_append, List.count_eq_zero_of_not_mem hpd,
      List.count_cons_self, List.count_cons_of_ne (by simp),
      List.count_eq_zero_of_not_mem hld]
  · rw [htr, List.count_append, List.count_eq_zero_of_not_mem hpv,
      List.count_cons_of_ne (by simp), List.count_cons_self,
      List.count_eq_zero_of_not_mem hlv]

/-- Witness for C7: both checkpoints exist; one episode whose second step
reports done. -/
theorem C7_testing_with_models_witness :
    (run_testing fsAll stW [true, false] [[false, true]]).1.count
        Event.ddpgLoad = 1 ∧
    (run_testing fsAll stW [true, false] [[false, true]]).1.count
        Event.vaeLoad = 1 :=
  ⟨(C7_testing_with_models fsAll stW [true, false] [[false, true]] rfl).2.1,
   (C7_testing_with_models fsAll stW [true, false] [[false, true]] rfl).2.2.1⟩

/-- C9: `set_vae` is invoked exactly once, during construction, and the VAE
object handed to the environment is never rebound: after construction the
environment's VAE reference equals the controller's VAE reference, no
`setVae` event occurs in any `run_testing` or `run_training` trace, and
`run_testing` leaves both the controller's VAE reference and the
environment's VAE reference unchanged (its reload rebinds only
`self.ddpg`, allocating a fresh object id). -/
theorem C9_vae_identity (p : Params) (fs : String → Bool)
    (st0 : ControllerState)
    (h : (controllerInit p fs).2 = Except.ok st0) :
    (controllerInit p fs).1.count Event.setVae = 1 ∧
    st0.envVaeRef = st0.vaeRef ∧
    (∀ (fs2 : String → Bool) (st : ControllerState) (qs : List Bool)
        (ds : List (List Bool)),
      (run_testing fs2 st qs ds).2.vaeRef = st.vaeRef ∧
      (run_testing fs2 st qs ds).2.envVaeRef = st.envVaeRef ∧
      Event.setVae ∉ (run_testing fs2 st qs ds).1) ∧
    (∀ (skip : Nat) (qs : List Bool) (autop : List (List Bool)),
      Event.setVae ∉ run_training skip qs autop) := by
  have hmp : fs p.model_path = true := by
    by_contra hner
    rw [Bool.not_eq_true] at hner
    unfold controllerInit at h
    rw [if_neg (by simp [hner])] at h
    simp at h
  have hprobe0 : (any_precompiled_models fs (joinPath p.model_path PATH_MODEL_DDPG)
      (joinPath p.model_path PATH_MODEL_VAE)).1.count Event.setVae = 0 := by
    refine List.count_eq_zero_of_not_mem ?_
    intro hm
    rcases mem_probes hm with ⟨pp, hp⟩
    simp at hp
  have hcount : (controllerInit p fs).1.count Event.setVae = 1 := by
    by_cases hpre : (any_precompiled_models fs
        (joinPath p.model_path PATH_MODEL_DDPG)
        (joinPath p.model_path PATH_MODEL_VAE)).2 = true
    · have h1 : (controllerInit p fs).1 =
          [Event.envMake, Event.vaeInit, Event.setVae] ++
            (any_precompiled_models fs (joinPath p.model_path PATH_MODEL_DDPG)
              (joinPath p.model_path PATH_MODEL_VAE)).1 ++
            [Event.ddpgLoad, Event.vaeLoad] := by
        simp [controllerInit, hmp, hpre]
      rw [h1, List.count_append, List.count_append, hprobe0]
      decide
    · have h1 : (controllerInit p fs).1 =
          [Event.envMake, Event.vaeInit, Event.setVae] ++
            (any_precompiled_models fs (joinPath p.model_path PATH_MODEL_DDPG)
              (joinPath p.model_path PATH_MODEL_VAE)).1 ++
            [Event.initDDPG] := by
        simp [controllerInit, hmp, hpre]
      rw [h1, List.count_append, List.count_append, hprobe0]
      decide
  have hrefs : st0.envVaeRef = st0.vaeRef := by
    by_cases hpre : (any_precompiled_models fs
        (joinPath p.model_path PATH_MODEL_DDPG)
        (joinPath p.model_path PATH_MODEL_VAE)).2 = true
    · simp only [controllerInit, hmp, hpre, if_true] at h
      have h2 := Except.ok.inj h
      rw [← h2]
    · simp only [controllerInit, hmp, if_true] at h
      rw [if_neg hpre] at h
      have h2 := Except.ok.inj h
      rw [← h2]
  refine ⟨hcount, hrefs, ?_, ?_⟩
  · intro fs2 st qs ds
    by_cases hpre : (any_precompiled_models fs2 st.ddpg_path st.vae_path).2 = true
    · have htr : run_testing fs2 st qs ds =
          ((any_precompiled_models fs2 st.ddpg_path st.vae_path).1 ++
            Event.ddpgLoad :: Event.vaeLoad :: testingLoop qs ds,
           { st with ddpgRef := st.nextRef, nextRef := st.nextRef + 1 }) := by
        unfold run_testing
        rw [if_pos hpre]
      refine ⟨by rw [htr], by rw [htr], ?_⟩
      intro hmem
      rcases mem_run_testing hmem with ⟨pp, hp⟩ | hp | hp | ⟨o, ho⟩ | hs |
        ⟨o, ho⟩ | ⟨b, o, hb⟩ | hp | hp <;> simp [isSleep] at *
    · have htr : run_testing fs2 st qs ds =
          ((any_precompiled_models fs2 st.ddpg_path st.vae_path).1 ++
            Event.printMsg :: idleLoop qs, st) := by
        unfold run_testing
        rw [if_neg hpre]
      refine ⟨by rw [htr], by rw [htr], ?_⟩
      intro hmem
      rcases mem_run_testing hmem with ⟨pp, hp⟩ | hp | hp | ⟨o, ho⟩ | hs |
        ⟨o, ho⟩ | ⟨b, o, hb⟩ | hp | hp <;> simp [isSleep] at *
  · intro skip qs autop hmem
    unfold run_training at hmem
    rcases List.mem_append.mp hmem with hm | hm
    · rcases mem_runTrainingLoop hm with ⟨b, hb⟩ | hs | ⟨b, hb⟩ <;>
        simp [isSleep] at *
    · simp at hm

/-- Witness for C9: construction with every path present succeeds and the
environment holds the same VAE object as the controller. -/
theorem C9_vae_identity_witness :
    (controllerInit pW fsAll).1.count Event.setVae = 1 ∧
    stW.envVaeRef = stW.vaeRef :=
  ⟨(C9_vae_identity pW fsAll stW rfl).1,
   (C9_vae_identity pW fsAll stW rfl).2.1⟩

end EagleMK4
